import Mathlib

/-!
# Verification development for the `class08` demonstration programs

Two C++ programs are embedded:

* `duck.cpp`: the classes `Flyable`, `Duck`, `Mallard`, `RubberDuck` and their
  virtual methods `fly`, `quack`, `push`;
* `multiple-inheritance.cpp`: the diamond `A`, `B : A`, `C : A`, `D : B, C`
  (non-virtual inheritance) and its `main`.

The second program is run on an explicit machine state: a memory of scalar
cells addressed by byte address, the list of live heap blocks and a
chronological trace of events (allocation, release, reads, writes, printed
lines).  The address returned by `new D()` is the only thing the environment
chooses; it is the parameter of `main`.
-/

namespace DuckProgram

/-- The classes of `duck.cpp`. -/
inductive Class where
  | Flyable
  | Duck
  | Mallard
  | RubberDuck
  deriving DecidableEq, Repr

/-- The method names of `duck.cpp`. -/
inductive Method where
  | fly
  | quack
  | push
  deriving DecidableEq, Repr

/-- How a class body declares a method: pure (`= 0`) or with a body. -/
inductive Decl where
  | pureVirtual
  | body
  deriving DecidableEq, Repr

/-- The method declarations written in each class body. -/
def declared : Class → Method → Option Decl
  | .Flyable, .fly => some .pureVirtual
  | .Duck, .quack => some .pureVirtual
  | .Duck, .push => some .body
  | .Mallard, .quack => some .body
  | .Mallard, .fly => some .body
  | .Mallard, .push => some .body
  | .RubberDuck, .quack => some .body
  | _, _ => none

/-- A class followed by its base classes, in the order of the base list. -/
def lineage : Class → List Class
  | .Flyable => [.Flyable]
  | .Duck => [.Duck]
  | .Mallard => [.Mallard, .Duck, .Flyable]
  | .RubberDuck => [.RubberDuck, .Duck]

/-- Member lookup: `c` has a member named `m` when `c` or one of its bases declares it. -/
def hasMember (c : Class) (m : Method) : Bool :=
  (lineage c).any (fun k => (declared k m).isSome)

/-- The base classes (the class itself excluded) that declare `m`: the
declarations a definition of `m` in `c` overrides. -/
def overridden (c : Class) (m : Method) : List Class :=
  ((lineage c).tail).filter (fun k => (declared k m).isSome)

/-- Final overrider of `m` in an object of class `dyn`: the most derived
declaration along the lineage. -/
def finalOverrider (dyn : Class) (m : Method) : Option (Class × Decl) :=
  (lineage dyn).findSome? (fun k => (declared k m).map (fun d => (k, d)))

/-- An object: where it lives and the class it was created as. -/
structure Obj where
  addr : Nat
  dyn : Class
  deriving DecidableEq, Repr

/-- Ways a call can fail. -/
inductive Err where
  | noMember (c : Class) (m : Method)
  | notABase (c : Class) (dyn : Class)
  | pureVirtualCall
  deriving DecidableEq, Repr

/-- Computations that append lines to standard output and may fail. -/
abbrev Out (α : Type) := StateT (List String) (Except Err) α

/-- The statement `std::cout << line << std::endl`. -/
def println (line : String) : Out Unit :=
  fun out => .ok ((), out ++ [line])

/-- Body of `Mallard::quack`. -/
def Mallard.quack (_this : Obj) : Out Unit := println "Quack!"

/-- Body of `Mallard::fly`. -/
def Mallard.fly (_this : Obj) : Out Unit := println "Heading south!"

/-- Body of `RubberDuck::quack`. -/
def RubberDuck.quack (_this : Obj) : Out Unit := println "Squeak!"

/-- The virtual call `this->quack()`. -/
def quack (this : Obj) : Out Unit :=
  match finalOverrider this.dyn .quack with
  | some (.Mallard, .body) => Mallard.quack this
  | some (.RubberDuck, .body) => RubberDuck.quack this
  | some (_, .pureVirtual) => throw .pureVirtualCall
  | _ => throw (.noMember this.dyn .quack)

/-- The virtual call `this->fly()`. -/
def fly (this : Obj) : Out Unit :=
  match finalOverrider this.dyn .fly with
  | some (.Mallard, .body) => Mallard.fly this
  | some (_, .pureVirtual) => throw .pureVirtualCall
  | _ => throw (.noMember this.dyn .fly)

/-- Body of `Duck::push`: `quack();`. -/
def Duck.push (this : Obj) : Out Unit := quack this

/-- Body of `Mallard::push`: `quack(); fly();`. -/
def Mallard.push (this : Obj) : Out Unit := do
  quack this
  fly this

/-- The virtual call `this->push()`. -/
def push (this : Obj) : Out Unit :=
  match finalOverrider this.dyn .push with
  | some (.Duck, .body) => Duck.push this
  | some (.Mallard, .body) => Mallard.push this
  | some (_, .pureVirtual) => throw .pureVirtualCall
  | _ => throw (.noMember this.dyn .push)

/-- The call `r.m()` through a reference `r` of declared type `static` bound to
the object `o`.  The binding needs `static` to be the class of `o` or one of its
bases, the name `m` is looked up in `static`, and the call is virtual. -/
def call (static : Class) (o : Obj) (m : Method) : Out Unit :=
  if !(lineage o.dyn).contains static then throw (.notABase static o.dyn)
  else if !(hasMember static m) then throw (.noMember static m)
  else match m with
    | .quack => quack o
    | .fly => fly o
    | .push => push o

end DuckProgram

namespace MultipleInheritance

/-! ## Machine model -/

/-- Function bodies a virtual-table slot can refer to. -/
inductive Fn where
  | B_m
  | C_m
  deriving DecidableEq, Repr

/-- Virtual tables the compiler emits for the four classes.  `D` has two:
the one shared with its primary base `B` and the one of its `C` sub-object. -/
inductive VTable where
  | A
  | B
  | C
  | D_in_B
  | D_in_C
  deriving DecidableEq, Repr

/-- A scalar stored in one memory cell. -/
inductive Val where
  | int (n : Int)
  | vptr (t : VTable)
  deriving DecidableEq, Repr

/-- Observable steps of an execution. -/
inductive Event where
  | alloc (addr size : Nat)
  | free (addr : Nat)
  | read (addr : Nat)
  | write (addr : Nat) (v : Val)
  | print (line : String)
  deriving DecidableEq, Repr

/-- Ways an execution can go wrong. -/
inductive Err where
  | invalidAccess (addr : Nat)
  | notAnInt (addr : Nat)
  | notAVptr (addr : Nat)
  | pureVirtualCall
  | invalidFree (addr : Nat)
  deriving DecidableEq, Repr

/-- Machine state: memory cells (latest write first), live heap blocks as
`(address, size)`, and the trace of events in chronological order. -/
structure State where
  mem : List (Nat × Val)
  live : List (Nat × Nat)
  trace : List Event
  deriving DecidableEq, Repr

/-- State at program start. -/
def State.init : State := ⟨[], [], []⟩

/-- Computations over the machine state that may fail. -/
abbrev Exec (α : Type) := StateT State (Except Err) α

/-- Whether `addr` lies inside a live heap block. -/
def State.valid (s : State) (addr : Nat) : Bool :=
  s.live.any (fun b => decide (b.1 ≤ addr) && decide (addr < b.1 + b.2))

/-- Append an event to the trace. -/
def emit (e : Event) : Exec Unit :=
  fun s => .ok ((), { s with trace := s.trace ++ [e] })

/-- Load the cell at `addr`; fails outside live blocks and on a cell never written. -/
def load (addr : Nat) : Exec Val :=
  fun s =>
    if s.valid addr then
      match s.mem.lookup addr with
      | some v => .ok (v, { s with trace := s.trace ++ [Event.read addr] })
      | none => .error (.invalidAccess addr)
    else .error (.invalidAccess addr)

/-- Store `v` in the cell at `addr`; fails outside live blocks. -/
def store (addr : Nat) (v : Val) : Exec Unit :=
  fun s =>
    if s.valid addr then
      .ok ((), { s with mem := (addr, v) :: s.mem, trace := s.trace ++ [Event.write addr v] })
    else .error (.invalidAccess addr)

/-- Load an `int` field. -/
def loadInt (addr : Nat) : Exec Int := do
  match ← load addr with
  | .int n => pure n
  | .vptr _ => throw (.notAnInt addr)

/-- The statement `cout << line << endl`. -/
def println (line : String) : Exec Unit := emit (.print line)

/-- The allocation of `new T()`, before the constructor runs: the allocator hands
out the block of `size` bytes at `addr`, whose cells are not yet written. -/
def operator_new (addr size : Nat) : Exec Nat :=
  fun s => .ok (addr,
    { mem := s.mem.filter (fun c => !(decide (addr ≤ c.1) && decide (c.1 < addr + size))),
      live := (addr, size) :: s.live,
      trace := s.trace ++ [Event.alloc addr size] })

/-- The statement `delete p` for a class with trivial destructor: the live block
starting at `addr` is released; fails if no live block starts there. -/
def operator_delete (addr : Nat) : Exec Unit :=
  fun s =>
    match s.live.lookup addr with
    | some size =>
      .ok ((), { mem := s.mem.filter (fun c => !(decide (addr ≤ c.1) && decide (c.1 < addr + size))),
                 live := s.live.filter (fun b => !(b.1 == addr)),
                 trace := s.trace ++ [Event.free addr] })
    | none => .error (.invalidFree addr)

/-! ## Object layout

Sizes and offsets follow the Itanium C++ ABI on an LP64 target (8-byte pointers,
4-byte `int`): a polymorphic class starts with its virtual-table pointer, a
non-virtual base sub-object is embedded whole, the first polymorphic base is
the primary base at offset 0 and later bases follow in declaration order. -/

/-- Size of a pointer in bytes. -/
def ptrSize : Nat := 8

/-- Size of an `int` in bytes. -/
def intSize : Nat := 4

/-- Round `n` up to a multiple of `a`. -/
def alignUp (n a : Nat) : Nat := (n + a - 1) / a * a

/-- Offset of the virtual-table pointer in `A`. -/
def A.offsetof_vptr : Nat := 0

/-- Offset of the field `a` in `A`. -/
def A.offsetof_a : Nat := alignUp (A.offsetof_vptr + ptrSize) intSize

/-- Bytes of `A` that hold data (tail padding excluded). -/
def A.dsize : Nat := A.offsetof_a + intSize

/-- Offset of the `A` sub-object in `B` (primary base). -/
def B.offsetof_A : Nat := 0

/-- Offset of the field `b` in `B`. -/
def B.offsetof_b : Nat := alignUp (B.offsetof_A + A.dsize) intSize

/-- Bytes of `B` that hold data. -/
def B.dsize : Nat := B.offsetof_b + intSize

/-- Offset of the `A` sub-object in `C` (primary base). -/
def C.offsetof_A : Nat := 0

/-- Offset of the field `c` in `C`. -/
def C.offsetof_c : Nat := alignUp (C.offsetof_A + A.dsize) intSize

/-- Bytes of `C` that hold data. -/
def C.dsize : Nat := C.offsetof_c + intSize

/-- Offset of the `B` sub-object in `D` (primary base). -/
def D.offsetof_B : Nat := 0

/-- Offset of the `C` sub-object in `D`: after the `B` sub-object, pointer aligned. -/
def D.offsetof_C : Nat := alignUp (D.offsetof_B + B.dsize) ptrSize

/-- Offset of the field `d` in `D`. -/
def D.offsetof_d : Nat := alignUp (D.offsetof_C + C.dsize) intSize

/-- The value of `sizeof(D)`. -/
def D.sizeof : Nat := alignUp (D.offsetof_d + intSize) ptrSize

/-! ## Pointer conversions

Implicit derived-to-base conversions add the offset of the base sub-object.
The pointers converted in this program all stem from `new`, which never yields
a null pointer, so the null case of the conversion is not represented. -/

/-- Conversion `B* -> A*`. -/
def B.toA (p : Nat) : Nat := p + B.offsetof_A

/-- Conversion `C* -> A*`. -/
def C.toA (p : Nat) : Nat := p + C.offsetof_A

/-- Conversion `D* -> B*`. -/
def D.toB (p : Nat) : Nat := p + D.offsetof_B

/-- Conversion `D* -> C*`. -/
def D.toC (p : Nat) : Nat := p + D.offsetof_C

/-! ## The classes -/

/-- The classes of `multiple-inheritance.cpp`. -/
inductive Class where
  | A
  | B
  | C
  | D
  deriving DecidableEq, Repr

/-- What each class body says about `m`: nothing (`none`), pure virtual
(`some none`), or a body (`some (some f)`). -/
def Class.declares_m : Class → Option (Option Fn)
  | .A => some none
  | .B => some (some .B_m)
  | .C => some (some .C_m)
  | .D => none

/-- Inheritance path each table stands for, most derived class first: the table
of a complete `A`, `B` or `C` (in use while that constructor runs), and the two
tables of a `D`, one per `A` sub-object. -/
def VTable.path : VTable → List Class
  | .A => [.A]
  | .B => [.B, .A]
  | .C => [.C, .A]
  | .D_in_B => [.D, .B, .A]
  | .D_in_C => [.D, .C, .A]

/-- Slot of the virtual method `m` in each table: the final overrider, i.e. the
declaration of the most derived class on the path that declares `m`; `none` when
that declaration is pure. -/
def VTable.m (t : VTable) : Option Fn :=
  (t.path.findSome? Class.declares_m).join

/-- Constructor `A() : a(1) {}`. -/
def A.ctor (this : Nat) : Exec Unit := do
  store (this + A.offsetof_vptr) (.vptr .A)
  store (this + A.offsetof_a) (.int 1)

/-- Constructor `B() : b(1) { this->a = 2; }`. -/
def B.ctor (this : Nat) : Exec Unit := do
  A.ctor (B.toA this)
  store (B.toA this + A.offsetof_vptr) (.vptr .B)
  store (this + B.offsetof_b) (.int 1)
  store (B.toA this + A.offsetof_a) (.int 2)

/-- Constructor `C() : c(1) { this->a = 3; }`. -/
def C.ctor (this : Nat) : Exec Unit := do
  A.ctor (C.toA this)
  store (C.toA this + A.offsetof_vptr) (.vptr .C)
  store (this + C.offsetof_c) (.int 1)
  store (C.toA this + A.offsetof_a) (.int 3)

/-- Constructor `D() : d(1) {}`: bases in declaration order, then the tables of
`D`, then the member initializer. -/
def D.ctor (this : Nat) : Exec Unit := do
  B.ctor (D.toB this)
  C.ctor (D.toC this)
  store (B.toA (D.toB this) + A.offsetof_vptr) (.vptr .D_in_B)
  store (C.toA (D.toC this) + A.offsetof_vptr) (.vptr .D_in_C)
  store (this + D.offsetof_d) (.int 1)

/-- The method `B::m`. -/
def B.m (_this : Nat) : Exec Unit := println "B"

/-- The method `C::m`. -/
def C.m (_this : Nat) : Exec Unit := println "C"

/-- The virtual call `p->m()` for `p` of static type `A*`: the table is read from
the object and its slot decides the body. -/
def A.m (this : Nat) : Exec Unit := do
  match ← load (this + A.offsetof_vptr) with
  | .vptr t =>
    match t.m with
    | some .B_m => B.m this
    | some .C_m => C.m this
    | none => throw .pureVirtualCall
  | .int _ => throw (.notAVptr this)

/-- The expression `new D()` when the allocator returns `addr`. -/
def D.new (addr : Nat) : Exec Nat := do
  let x ← operator_new addr D.sizeof
  D.ctor x
  pure x

/-! ## Printing -/

/-- One lower-case hexadecimal digit. -/
def hexDigit : Nat → Char
  | 0 => '0' | 1 => '1' | 2 => '2' | 3 => '3' | 4 => '4' | 5 => '5' | 6 => '6' | 7 => '7'
  | 8 => '8' | 9 => '9' | 10 => 'a' | 11 => 'b' | 12 => 'c' | 13 => 'd' | 14 => 'e'
  | _ => 'f'

/-- Rendering of `cout << (void*) p`: `0x` and the address in hexadecimal. -/
def showPtr (p : Nat) : String :=
  if p = 0 then "0" else String.mk ('0' :: 'x' :: ((Nat.digits 16 p).map hexDigit).reverse)

/-- Rendering of `cout << n` for an `int`. -/
def showInt (n : Int) : String := toString n

/-! ## The program -/

/-- The function `main`, for the address `p` that `new D()` obtains. -/
def main (p : Nat) : Exec Int := do
  let x ← D.new p
  let y := D.toB x
  let z := D.toC x
  let u := C.toA z
  println ("y->a = " ++ showInt (← loadInt (B.toA y + A.offsetof_a)))
  println ("u->a = " ++ showInt (← loadInt (u + A.offsetof_a)))
  println ("z->a = " ++ showInt (← loadInt (C.toA z + A.offsetof_a)))
  A.m u
  println ("x = " ++ showPtr x)
  println ("y = " ++ showPtr y)
  println ("u = " ++ showPtr u)
  println ("z = " ++ showPtr z)
  operator_delete x
  pure 0

/-- Run `main` from the initial state. -/
def run (p : Nat) : Except Err (Int × State) := (main p).run State.init

/-- Printed lines of a trace, in order. -/
def output (tr : List Event) : List String :=
  tr.filterMap (fun e => match e with | .print l => some l | _ => none)

/-! ## Observations on executions -/

/-- The lines `main` prints when `new D()` obtains `p`. -/
def outputOf (p : Nat) : Except Err (List String) :=
  (run p).map (fun r => output r.2.trace)

/-- Values stored at `addr` along a trace, in order. -/
def writesTo (addr : Nat) (tr : List Event) : List Val :=
  tr.filterMap (fun e => match e with
    | .write a v => if a = addr then some v else none
    | _ => none)

/-- Heap blocks handed out along a trace, in order. -/
def allocations (tr : List Event) : List (Nat × Nat) :=
  tr.filterMap (fun e => match e with | .alloc a n => some (a, n) | _ => none)

/-- Heap blocks released along a trace, in order. -/
def releases (tr : List Event) : List Nat :=
  tr.filterMap (fun e => match e with | .free a => some a | _ => none)

/-- The `int` stores of a trace as `(address, value)`, in order. -/
def intWrites (tr : List Event) : List (Nat × Int) :=
  tr.filterMap (fun e => match e with | .write a (.int n) => some (a, n) | _ => none)

/-- Addresses loaded along a trace, in order. -/
def loads (tr : List Event) : List Nat :=
  tr.filterMap (fun e => match e with | .read a => some a | _ => none)

/-- Content of the cell at `addr`, without an event. -/
def State.peek (s : State) (addr : Nat) : Option Val := s.mem.lookup addr

/-- Address of the copy of `a` in the `B` sub-object of the `D` at `x`: the
lvalue `y->a` for `B* y = x`. -/
def D.addr_a_in_B (x : Nat) : Nat := B.toA (D.toB x) + A.offsetof_a

/-- Address of the copy of `a` in the `C` sub-object of the `D` at `x`: the
lvalue `z->a` for `C* z = x`. -/
def D.addr_a_in_C (x : Nat) : Nat := C.toA (D.toC x) + A.offsetof_a

/-- Inverse of `hexDigit` on the sixteen digits. -/
def hexVal (c : Char) : Nat :=
  if c = '0' then 0 else if c = '1' then 1 else if c = '2' then 2 else if c = '3' then 3
  else if c = '4' then 4 else if c = '5' then 5 else if c = '6' then 6 else if c = '7' then 7
  else if c = '8' then 8 else if c = '9' then 9 else if c = 'a' then 10 else if c = 'b' then 11
  else if c = 'c' then 12 else if c = 'd' then 13 else if c = 'e' then 14 else 15

/-- Cells written by `D()` at `this`, latest first. -/
def D.cells (this : Nat) : List (Nat × Val) :=
  [(this + 32, .int 1), (this + 16, .vptr .D_in_C), (this, .vptr .D_in_B),
   (this + 24, .int 3), (this + 28, .int 1), (this + 16, .vptr .C),
   (this + 24, .int 1), (this + 16, .vptr .A),
   (this + 8, .int 2), (this + 12, .int 1), (this, .vptr .B),
   (this + 8, .int 1), (this, .vptr .A)]

/-- Events of `D()` at `this`, in order. -/
def D.ctorEvents (this : Nat) : List Event :=
  [.write this (.vptr .A), .write (this + 8) (.int 1),
   .write this (.vptr .B), .write (this + 12) (.int 1), .write (this + 8) (.int 2),
   .write (this + 16) (.vptr .A), .write (this + 24) (.int 1),
   .write (this + 16) (.vptr .C), .write (this + 28) (.int 1), .write (this + 24) (.int 3),
   .write this (.vptr .D_in_B), .write (this + 16) (.vptr .D_in_C),
   .write (this + 32) (.int 1)]


/-- Events of `main` after the construction of the `D` at `p`, in order. -/
def mainEvents (p : Nat) : List Event :=
  [.read (p + 8), .print "y->a = 2", .read (p + 24), .print "u->a = 3",
   .read (p + 24), .print "z->a = 3", .read (p + 16), .print "C",
   .print ("x = " ++ showPtr p), .print ("y = " ++ showPtr p),
   .print ("u = " ++ showPtr (p + 16)), .print ("z = " ++ showPtr (p + 16)),
   .free p]


end MultipleInheritance

/-! # Proofs -/

namespace MultipleInheritance

/-! ## Execution lemmas -/

theorem offs : A.offsetof_vptr = 0 ∧ A.offsetof_a = 8 ∧ B.offsetof_A = 0 ∧ B.offsetof_b = 12 ∧
    C.offsetof_A = 0 ∧ C.offsetof_c = 12 ∧ D.offsetof_B = 0 ∧ D.offsetof_C = 16 ∧
    D.offsetof_d = 32 ∧ D.sizeof = 40 := by decide

theorem vtable_slots : VTable.m .A = none ∧ VTable.m .B = some .B_m ∧ VTable.m .C = some .C_m ∧
    VTable.m .D_in_B = some .B_m ∧ VTable.m .D_in_C = some .C_m := by decide

theorem ok_bind {α β : Type} (a : α) (f : α → Except Err β) : (Except.ok a >>= f) = f a := rfl

theorem store_run (addr : Nat) (v : Val) (s : State) (h : s.valid addr = true) :
    (store addr v).run s
      = .ok ((), { s with mem := (addr, v) :: s.mem, trace := s.trace ++ [Event.write addr v] }) := by
  simp [store, StateT.run, h]

theorem operator_new_run (addr size : Nat) (s : State) :
    (operator_new addr size).run s = .ok (addr,
      { mem := s.mem.filter (fun c => !(decide (addr ≤ c.1) && decide (c.1 < addr + size))),
        live := (addr, size) :: s.live,
        trace := s.trace ++ [Event.alloc addr size] }) := rfl

theorem emit_run (e : Event) (s : State) :
    (emit e).run s = .ok ((), { s with trace := s.trace ++ [e] }) := rfl

theorem load_run (addr : Nat) (v : Val) (s : State) (h : s.valid addr = true)
    (hv : s.mem.lookup addr = some v) :
    (load addr).run s = .ok (v, { s with trace := s.trace ++ [Event.read addr] }) := by
  simp [load, StateT.run, h, hv]

theorem operator_delete_run (addr size : Nat) (s : State) (h : s.live.lookup addr = some size) :
    (operator_delete addr).run s = .ok ((),
      { mem := s.mem.filter (fun c => !(decide (addr ≤ c.1) && decide (c.1 < addr + size))),
        live := s.live.filter (fun b => !(b.1 == addr)),
        trace := s.trace ++ [Event.free addr] }) := by
  simp [operator_delete, StateT.run, h]

theorem valid_of_head (p n addr : Nat) (m : List (Nat × Val)) (l : List (Nat × Nat))
    (t : List Event) (h1 : p ≤ addr) (h2 : addr < p + n) :
    State.valid ⟨m, (p, n) :: l, t⟩ addr = true := by
  simp [State.valid, h1, h2]

theorem store_head (addr : Nat) (v : Val) (p n : Nat) (m : List (Nat × Val))
    (l : List (Nat × Nat)) (t : List Event) (h1 : p ≤ addr) (h2 : addr < p + n) :
    (store addr v).run ⟨m, (p, n) :: l, t⟩
      = .ok ((), ⟨(addr, v) :: m, (p, n) :: l, t ++ [Event.write addr v]⟩) :=
  store_run addr v _ (valid_of_head p n addr m l t h1 h2)

theorem run_A_ctor (this p n : Nat) (m : List (Nat × Val)) (l : List (Nat × Nat))
    (t : List Event) (h1 : p ≤ this) (h2 : this + 12 ≤ p + n) :
    (A.ctor this).run ⟨m, (p, n) :: l, t⟩ = .ok ((),
      ⟨(this + 8, .int 1) :: (this, .vptr .A) :: m, (p, n) :: l,
        t ++ [Event.write this (.vptr .A), Event.write (this + 8) (.int 1)]⟩) := by
  simp only [A.ctor, StateT.run_bind, offs, Nat.add_zero]
  rw [store_head _ _ _ _ _ _ _ h1 (by omega)]
  simp only [ok_bind]
  rw [store_head _ _ _ _ _ _ _ (by omega) (by omega)]
  simp

theorem run_B_ctor (this p n : Nat) (m : List (Nat × Val)) (l : List (Nat × Nat))
    (t : List Event) (h1 : p ≤ this) (h2 : this + 16 ≤ p + n) :
    (B.ctor this).run ⟨m, (p, n) :: l, t⟩ = .ok ((),
      ⟨(this + 8, .int 2) :: (this + 12, .int 1) :: (this, .vptr .B) ::
          (this + 8, .int 1) :: (this, .vptr .A) :: m, (p, n) :: l,
        t ++ [Event.write this (.vptr .A), Event.write (this + 8) (.int 1),
              Event.write this (.vptr .B), Event.write (this + 12) (.int 1),
              Event.write (this + 8) (.int 2)]⟩) := by
  simp only [B.ctor, B.toA, StateT.run_bind, offs, Nat.add_zero]
  rw [run_A_ctor _ _ _ _ _ _ h1 (by omega)]
  simp only [ok_bind]
  rw [store_head _ _ _ _ _ _ _ h1 (by omega)]
  simp only [ok_bind]
  rw [store_head _ _ _ _ _ _ _ (by omega) (by omega)]
  simp only [ok_bind]
  rw [store_head _ _ _ _ _ _ _ (by omega) (by omega)]
  simp

theorem run_C_ctor (this p n : Nat) (m : List (Nat × Val)) (l : List (Nat × Nat))
    (t : List Event) (h1 : p ≤ this) (h2 : this + 16 ≤ p + n) :
    (C.ctor this).run ⟨m, (p, n) :: l, t⟩ = .ok ((),
      ⟨(this + 8, .int 3) :: (this + 12, .int 1) :: (this, .vptr .C) ::
          (this + 8, .int 1) :: (this, .vptr .A) :: m, (p, n) :: l,
        t ++ [Event.write this (.vptr .A), Event.write (this + 8) (.int 1),
              Event.write this (.vptr .C), Event.write (this + 12) (.int 1),
              Event.write (this + 8) (.int 3)]⟩) := by
  simp only [C.ctor, C.toA, StateT.run_bind, offs, Nat.add_zero]
  rw [run_A_ctor _ _ _ _ _ _ h1 (by omega)]
  simp only [ok_bind]
  rw [store_head _ _ _ _ _ _ _ h1 (by omega)]
  simp only [ok_bind]
  rw [store_head _ _ _ _ _ _ _ (by omega) (by omega)]
  simp only [ok_bind]
  rw [store_head _ _ _ _ _ _ _ (by omega) (by omega)]
  simp

theorem run_D_ctor (this p n : Nat) (m : List (Nat × Val)) (l : List (Nat × Nat))
    (t : List Event) (h1 : p ≤ this) (h2 : this + 36 ≤ p + n) :
    (D.ctor this).run ⟨m, (p, n) :: l, t⟩ = .ok ((),
      ⟨D.cells this ++ m, (p, n) :: l, t ++ D.ctorEvents this⟩) := by
  simp only [D.ctor, B.toA, C.toA, D.toB, D.toC, StateT.run_bind, offs, Nat.add_zero]
  rw [run_B_ctor _ _ _ _ _ _ h1 (by omega)]
  simp only [ok_bind]
  rw [run_C_ctor _ _ _ _ _ _ (by omega) (by omega)]
  simp only [ok_bind]
  rw [store_head _ _ _ _ _ _ _ h1 (by omega)]
  simp only [ok_bind]
  rw [store_head _ _ _ _ _ _ _ (by omega) (by omega)]
  simp only [ok_bind]
  rw [store_head _ _ _ _ _ _ _ (by omega) (by omega)]
  simp [D.cells, D.ctorEvents, Nat.add_assoc]

theorem run_D_new (p : Nat) (s : State) :
    (D.new p).run s = .ok (p,
      ⟨D.cells p ++ s.mem.filter (fun c => !(decide (p ≤ c.1) && decide (c.1 < p + 40))),
       (p, 40) :: s.live, s.trace ++ Event.alloc p 40 :: D.ctorEvents p⟩) := by
  simp only [D.new, StateT.run_bind, operator_new_run, ok_bind, offs]
  rw [run_D_ctor _ _ _ _ _ _ (le_refl p) (by omega)]
  simp

theorem lookup_cons_self (k : Nat) (v : Val) (l : List (Nat × Val)) :
    ((k, v) :: l).lookup k = some v := by
  simp [List.lookup]

theorem lookup_cons_ne (k a : Nat) (v : Val) (l : List (Nat × Val)) (h : k ≠ a) :
    ((a, v) :: l).lookup k = l.lookup k := by
  have : (k == a) = false := by simpa using h
  simp [List.lookup, this]

theorem lookup_D_cells (p : Nat) (m : List (Nat × Val)) :
    (D.cells p ++ m).lookup p = some (.vptr .D_in_B) ∧
    (D.cells p ++ m).lookup (p + 8) = some (.int 2) ∧
    (D.cells p ++ m).lookup (p + 12) = some (.int 1) ∧
    (D.cells p ++ m).lookup (p + 16) = some (.vptr .D_in_C) ∧
    (D.cells p ++ m).lookup (p + 24) = some (.int 3) ∧
    (D.cells p ++ m).lookup (p + 28) = some (.int 1) ∧
    (D.cells p ++ m).lookup (p + 32) = some (.int 1) := by
  simp (disch := omega) [D.cells, lookup_cons_ne, lookup_cons_self]

theorem load_head (addr : Nat) (v : Val) (p n : Nat) (m : List (Nat × Val))
    (l : List (Nat × Nat)) (t : List Event) (h1 : p ≤ addr) (h2 : addr < p + n)
    (hv : m.lookup addr = some v) :
    (load addr).run ⟨m, (p, n) :: l, t⟩
      = .ok (v, ⟨m, (p, n) :: l, t ++ [Event.read addr]⟩) :=
  load_run addr v _ (valid_of_head p n addr m l t h1 h2) hv

theorem loadInt_head (addr : Nat) (k : Int) (p n : Nat) (m : List (Nat × Val))
    (l : List (Nat × Nat)) (t : List Event) (h1 : p ≤ addr) (h2 : addr < p + n)
    (hv : m.lookup addr = some (.int k)) :
    (loadInt addr).run ⟨m, (p, n) :: l, t⟩
      = .ok (k, ⟨m, (p, n) :: l, t ++ [Event.read addr]⟩) := by
  simp only [loadInt, StateT.run_bind]
  rw [load_head _ _ _ _ _ _ _ h1 h2 hv]
  rfl

theorem run_A_m (this : Nat) (tb : VTable) (p n : Nat) (m : List (Nat × Val))
    (l : List (Nat × Nat)) (t : List Event) (h1 : p ≤ this) (h2 : this < p + n)
    (hv : m.lookup this = some (.vptr tb)) :
    (A.m this).run ⟨m, (p, n) :: l, t⟩ =
      match tb.m with
      | some .B_m => .ok ((), ⟨m, (p, n) :: l, t ++ [Event.read this, Event.print "B"]⟩)
      | some .C_m => .ok ((), ⟨m, (p, n) :: l, t ++ [Event.read this, Event.print "C"]⟩)
      | none => .error .pureVirtualCall := by
  simp only [A.m, StateT.run_bind, offs, Nat.add_zero]
  rw [load_head _ _ _ _ _ _ _ h1 h2 hv]
  simp only [ok_bind]
  cases tb <;> first | rfl | simp [vtable_slots, B.m, C.m, println, emit_run]

theorem run_eq (p : Nat) :
    run p = .ok (0, ⟨[], [], Event.alloc p 40 :: (D.ctorEvents p ++ mainEvents p)⟩) := by
  obtain ⟨_, hB, _, hV, hC, _, _⟩ := lookup_D_cells p []
  simp only [run, main, StateT.run_bind, run_D_new, ok_bind, State.init, B.toA, C.toA, D.toB,
    D.toC, offs, Nat.add_zero, List.filter_nil, List.nil_append, Nat.add_assoc, Nat.reduceAdd]
  rw [loadInt_head _ _ _ _ _ _ _ (by omega) (by omega) hB]
  simp only [ok_bind, println, emit_run]
  rw [loadInt_head _ _ _ _ _ _ _ (by omega) (by omega) hC]
  simp only [ok_bind, println, emit_run]
  rw [loadInt_head _ _ _ _ _ _ _ (by omega) (by omega) hC]
  simp only [ok_bind, println, emit_run]
  rw [run_A_m _ _ _ _ _ _ _ (by omega) (by omega) hV]
  simp only [ok_bind, vtable_slots]
  rw [operator_delete_run _ 40 _ (by simp [List.lookup])]
  simp [D.cells, mainEvents, showInt]
  decide

theorem outputOf_eq (p : Nat) :
    outputOf p = .ok ["y->a = 2", "u->a = 3", "z->a = 3", "C",
      "x = " ++ showPtr p, "y = " ++ showPtr p,
      "u = " ++ showPtr (p + 16), "z = " ++ showPtr (p + 16)] := by
  simp [outputOf, run_eq, Except.map, output, D.ctorEvents, mainEvents]

/-! ## Rendering of addresses is injective -/

theorem hexVal_hexDigit (d : Nat) (h : d < 16) : hexVal (hexDigit d) = d := by
  interval_cases d <;> rfl

theorem map_hexVal_digits (n : Nat) :
    ((Nat.digits 16 n).map hexDigit).map hexVal = Nat.digits 16 n := by
  rw [List.map_map]
  conv_rhs => rw [← List.map_id (Nat.digits 16 n)]
  apply List.map_congr_left
  intro d hd
  exact hexVal_hexDigit d (Nat.digits_lt_base (by norm_num) hd)

theorem showPtr_injective (p q : Nat) (h : showPtr p = showPtr q) : p = q := by
  unfold showPtr at h
  by_cases hp : p = 0 <;> by_cases hq : q = 0
  · rw [hp, hq]
  · simp only [hp, hq, if_true, if_false] at h
    have h2 := congrArg String.data h
    simp at h2
  · simp only [hp, hq, if_true, if_false] at h
    have h2 := congrArg String.data h
    simp at h2
  · simp only [hp, hq, if_false] at h
    have h2 := congrArg String.data h
    simp only [List.cons.injEq, true_and, List.reverse_inj] at h2
    have h3 := congrArg (List.map hexVal) h2
    rw [map_hexVal_digits, map_hexVal_digits] at h3
    exact Nat.digits.injective 16 h3

theorem showPtr_eq_iff (p q : Nat) : showPtr p = showPtr q ↔ p = q :=
  ⟨showPtr_injective p q, fun h => by rw [h]⟩

theorem append_left_cancel (a b c : String) : a ++ b = a ++ c ↔ b = c := by
  constructor
  · intro h
    have h2 := congrArg String.data h
    simp only [String.data_append, List.append_cancel_left_eq] at h2
    exact String.ext h2
  · intro h
    rw [h]

theorem ptr_line_ne_B (p : Nat) (pre : String) (h : pre.data.head? ≠ some 'B') :
    pre ++ showPtr p ≠ "B" := by
  intro h2
  have h3 := congrArg String.data h2
  simp only [String.data_append] at h3
  cases hd : pre.data with
  | nil => 
    rw [hd] at h3
    simp [showPtr] at h3
    split at h3 <;> simp at h3
  | cons c cs =>
    rw [hd] at h3 h
    simp at h3 h
    exact h h3.1

/-! ## Claims about `multiple-inheritance.cpp` -/

/-- C1 (refuted as stated): two executions of `main` whose allocation lands at
different addresses print different line sequences; at addresses 4096 and 8192
the four pointer lines read `0x1000`/`0x1010` and `0x2000`/`0x2010`. -/
theorem C1_output_varies_with_address :
    outputOf 4096 = .ok ["y->a = 2", "u->a = 3", "z->a = 3", "C",
      "x = 0x1000", "y = 0x1000", "u = 0x1010", "z = 0x1010"] ∧
    outputOf 8192 = .ok ["y->a = 2", "u->a = 3", "z->a = 3", "C",
      "x = 0x2000", "y = 0x2000", "u = 0x2010", "z = 0x2010"] ∧
    outputOf 4096 ≠ outputOf 8192 := by
  have h1 : showPtr 4096 = "0x1000" := by simp [showPtr, hexDigit]
  have h2 : showPtr (4096 + 16) = "0x1010" := by simp [showPtr, hexDigit]
  have h3 : showPtr 8192 = "0x2000" := by simp [showPtr, hexDigit]
  have h4 : showPtr (8192 + 16) = "0x2010" := by simp [showPtr, hexDigit]
  rw [outputOf_eq, outputOf_eq, h1, h2, h3, h4]
  refine ⟨rfl, rfl, ?_⟩
  intro h
  injection h with h
  revert h
  decide

/-- C1 (amended): every execution of `main` prints eight lines; the first four do
not depend on the address `new D()` returns, and each of the four pointer lines
agrees between two executions exactly when the two addresses agree, so the whole
output is the same exactly when the address is the same. -/
theorem C1_output_determined_by_address (p q : Nat) :
    ∃ lp lq, outputOf p = .ok lp ∧ outputOf q = .ok lq ∧
      lp.length = 8 ∧ lq.length = 8 ∧
      lp.take 4 = lq.take 4 ∧
      (lp.get? 4 = lq.get? 4 ↔ p = q) ∧
      (lp.get? 5 = lq.get? 5 ↔ p = q) ∧
      (lp.get? 6 = lq.get? 6 ↔ p = q) ∧
      (lp.get? 7 = lq.get? 7 ↔ p = q) ∧
      (outputOf p = outputOf q ↔ p = q) := by
  refine ⟨_, _, outputOf_eq p, outputOf_eq q, rfl, rfl, rfl, ?_, ?_, ?_, ?_, ?_⟩
  · simp [append_left_cancel, showPtr_eq_iff]
  · simp [append_left_cancel, showPtr_eq_iff]
  · simp [append_left_cancel, showPtr_eq_iff]
  · simp [append_left_cancel, showPtr_eq_iff]
  · rw [outputOf_eq, outputOf_eq]
    simp [append_left_cancel, showPtr_eq_iff]

/-- C2 (the code departs from its comment): whatever address `new D()` returns,
the second line `main` prints is `u->a = 3`, not `u->a = 2`: `u` points at the
`A` inside the `C` sub-object, whose copy of `a` the constructor of `C` set to 3. -/
theorem C2_second_line_is_three (p : Nat) :
    (outputOf p).map (fun l => l.get? 1) = .ok (some "u->a = 3") ∧
    (outputOf p).map (fun l => l.get? 1) ≠ .ok (some "u->a = 2") ∧
    C.toA (D.toC p) + A.offsetof_a = D.addr_a_in_C p := by
  rw [outputOf_eq]
  refine ⟨rfl, ?_, rfl⟩
  intro h
  injection h with h
  have h2 : some "u->a = 3" = some "u->a = 2" := h
  revert h2
  decide

/-- C3: a freshly constructed `D` holds two copies of `a` at different addresses;
read through the `B` view the value is 2 and through the `C` view it is 3, `main`
prints `y->a = 2` as first and `z->a = 3` as third line, and running the
constructor of `C` on the `C` sub-object leaves the `B` copy as it was. -/
theorem C3_two_independent_copies (p : Nat) :
    D.addr_a_in_B p ≠ D.addr_a_in_C p ∧
    (∀ s : State, ((do
        let x ← D.new p
        let yA ← loadInt (B.toA (D.toB x) + A.offsetof_a)
        let zA ← loadInt (C.toA (D.toC x) + A.offsetof_a)
        pure (yA, zA) : Exec (Int × Int)).run s).map Prod.fst = .ok (2, 3)) ∧
    (outputOf p).map (fun l => (l.get? 0, l.get? 2))
      = .ok (some "y->a = 2", some "z->a = 3") ∧
    (∀ (m : List (Nat × Val)) (l : List (Nat × Nat)) (t : List Event),
      ((C.ctor (D.toC p)).run ⟨m, (p, D.sizeof) :: l, t⟩).map
          (fun r => r.2.peek (D.addr_a_in_B p))
        = .ok (State.peek ⟨m, (p, D.sizeof) :: l, t⟩ (D.addr_a_in_B p))) := by
  refine ⟨?_, ?_, ?_, ?_⟩
  · simp [D.addr_a_in_B, D.addr_a_in_C, B.toA, C.toA, D.toB, D.toC, offs]
  · intro s
    obtain ⟨_, hB, _, _, hC, _, _⟩ := lookup_D_cells p
      (s.mem.filter (fun c => !(decide (p ≤ c.1) && decide (c.1 < p + 40))))
    simp only [StateT.run_bind, run_D_new, ok_bind, B.toA, C.toA, D.toB, D.toC, offs,
      Nat.add_zero, Nat.add_assoc, Nat.reduceAdd]
    rw [loadInt_head _ _ _ _ _ _ _ (by omega) (by omega) hB]
    simp only [ok_bind]
    rw [loadInt_head _ _ _ _ _ _ _ (by omega) (by omega) hC]
    rfl
  · rw [outputOf_eq]
    rfl
  · intro m l t
    simp only [D.toC, offs, D.addr_a_in_B, B.toA, D.toB, Nat.add_zero]
    rw [run_C_ctor _ _ _ _ _ _ (by omega) (by omega)]
    simp (disch := omega) [Except.map, State.peek, lookup_cons_ne]

/-- C4: the virtual call `u->m()` on the `A` reached through the `C` view of a
freshly constructed `D` reads the table of the `C` sub-object and runs `C::m`: it
prints the one line `C`; in `main` that is the fourth line and no line is `B`.
The table of `A` itself has no body for `m`, and the two tables of `D` keep the
bodies of `B` and `C`. -/
theorem C4_dispatch_selects_C (p : Nat) (s : State) :
    ((do
        let x ← D.new p
        A.m (C.toA (D.toC x)) : Exec Unit).run s).map
          (fun r => (r.2.peek (C.toA (D.toC p) + A.offsetof_vptr),
                     output (r.2.trace.drop s.trace.length)))
      = .ok (some (.vptr .D_in_C), ["C"]) ∧
    (outputOf p).map (fun l => l.get? 3) = .ok (some "C") ∧
    (outputOf p).map (fun l => decide ("B" ∈ l)) = .ok false ∧
    VTable.m .A = none ∧ VTable.m .D_in_C = some .C_m ∧ VTable.m .D_in_B = some .B_m := by
  refine ⟨?_, ?_, ?_, rfl, rfl, rfl⟩
  · simp only [StateT.run_bind, run_D_new, ok_bind, C.toA, D.toC, offs, Nat.add_zero]
    generalize List.filter _ s.mem = m
    obtain ⟨_, _, _, hV, _, _, _⟩ := lookup_D_cells p m
    rw [run_A_m _ _ _ _ _ _ _ (by omega) (by omega) hV]
    simp [vtable_slots, Except.map, State.peek, hV, output, D.ctorEvents]
  · rw [outputOf_eq]
    rfl
  · rw [outputOf_eq]
    have hx := ptr_line_ne_B p "x = " (by decide)
    have hy := ptr_line_ne_B p "y = " (by decide)
    have hu := ptr_line_ne_B (p + 16) "u = " (by decide)
    have hz := ptr_line_ne_B (p + 16) "z = " (by decide)
    simp [Except.map, Ne.symm hx, Ne.symm hy, Ne.symm hu, Ne.symm hz]

/-- C7: in a `D` at any address the `A` reached through `B` and the `A` reached
through `C` are different locations; `main` prints `x`, `y` as the address of the
object and `u`, `z` as the address of its `C` sub-object, and the rendered value of
`u` and of `z` differs from the rendered value of `x` and of `y`. -/
theorem C7_distinct_grandparent_addresses (p : Nat) :
    B.toA (D.toB p) ≠ C.toA (D.toC p) ∧
    (outputOf p).map (fun l => l.drop 4)
      = .ok ["x = " ++ showPtr p, "y = " ++ showPtr (D.toB p),
             "u = " ++ showPtr (C.toA (D.toC p)), "z = " ++ showPtr (D.toC p)] ∧
    showPtr (C.toA (D.toC p)) ≠ showPtr p ∧
    showPtr (C.toA (D.toC p)) ≠ showPtr (D.toB p) ∧
    showPtr (D.toC p) ≠ showPtr p ∧
    showPtr (D.toC p) ≠ showPtr (D.toB p) := by
  rw [outputOf_eq]
  simp only [B.toA, C.toA, D.toB, D.toC, offs, Nat.add_zero, Ne, showPtr_eq_iff]
  refine ⟨by omega, rfl, by omega, by omega, by omega, by omega⟩

/-- C8: every execution of `main` returns 0; its trace holds one allocation, the
block of `sizeof(D)` bytes at `p`, and one release, of `p`; the release is the last
event, so every printed line and every load precedes it, and no block is live at
the end. -/
theorem C8_one_allocation_released_last (p : Nat) :
    ∃ s pre, run p = .ok (0, s) ∧ s.trace = pre ++ [Event.free p] ∧
      allocations s.trace = [(p, D.sizeof)] ∧
      releases s.trace = [p] ∧
      releases pre = [] ∧
      output pre = output s.trace ∧ (output pre).length = 8 ∧
      loads pre = loads s.trace ∧ loads pre = [p + 8, p + 24, p + 24, p + 16] ∧
      s.live = [] := by
  refine ⟨_, Event.alloc p 40 :: (D.ctorEvents p ++ (mainEvents p).dropLast), run_eq p,
    ?_, ?_, ?_, ?_, ?_, ?_, ?_, ?_, rfl⟩ <;>
  simp [D.ctorEvents, mainEvents, allocations, releases, output, loads, offs]

/-- C10: constructing a `D` at any address in any state succeeds; the copy of `a`
in the `B` sub-object is written 1 and then 2, the copy in the `C` sub-object 1 and
then 3 (the field stores run in the order `a`, `b`, `a` for `B`, then `a`, `c`, `a`
for `C`, then `d`), and afterwards the fields hold `a = 2` (in `B`), `a = 3` (in
`C`), `b = 1`, `c = 1`, `d = 1`, so neither copy of `a` holds 1. -/
theorem C10_constructor_chaining (p : Nat) (s : State) :
    ∃ s1, (D.new p).run s = .ok (p, s1) ∧
      intWrites (s1.trace.drop s.trace.length)
        = [(D.addr_a_in_B p, 1), (D.toB p + B.offsetof_b, 1), (D.addr_a_in_B p, 2),
           (D.addr_a_in_C p, 1), (D.toC p + C.offsetof_c, 1), (D.addr_a_in_C p, 3),
           (p + D.offsetof_d, 1)] ∧
      writesTo (D.addr_a_in_B p) (s1.trace.drop s.trace.length) = [.int 1, .int 2] ∧
      writesTo (D.addr_a_in_C p) (s1.trace.drop s.trace.length) = [.int 1, .int 3] ∧
      s1.peek (D.addr_a_in_B p) = some (.int 2) ∧
      s1.peek (D.addr_a_in_C p) = some (.int 3) ∧
      s1.peek (D.toB p + B.offsetof_b) = some (.int 1) ∧
      s1.peek (D.toC p + C.offsetof_c) = some (.int 1) ∧
      s1.peek (p + D.offsetof_d) = some (.int 1) ∧
      s1.peek (D.addr_a_in_B p) ≠ some (.int 1) ∧
      s1.peek (D.addr_a_in_C p) ≠ some (.int 1) := by
  obtain ⟨_, hB, hb, _, hC, hc, hd⟩ := lookup_D_cells p
    (s.mem.filter (fun c => !(decide (p ≤ c.1) && decide (c.1 < p + 40))))
  refine ⟨_, run_D_new p s, ?_, ?_, ?_, ?_, ?_, ?_, ?_, ?_, ?_, ?_⟩
  · simp [intWrites, D.ctorEvents, D.addr_a_in_B, D.addr_a_in_C, B.toA, C.toA, D.toB, D.toC,
      offs, Nat.add_assoc]
  · simp [writesTo, D.ctorEvents, D.addr_a_in_B, B.toA, D.toB, offs]
  · simp [writesTo, D.ctorEvents, D.addr_a_in_C, C.toA, D.toC, offs, Nat.add_assoc]
  · simpa [State.peek, D.addr_a_in_B, B.toA, D.toB, offs] using hB
  · simpa [State.peek, D.addr_a_in_C, C.toA, D.toC, offs, Nat.add_assoc] using hC
  · simpa [State.peek, D.toB, offs] using hb
  · simpa [State.peek, D.toC, offs, Nat.add_assoc] using hc
  · simpa [State.peek, offs] using hd
  · simp only [State.peek, D.addr_a_in_B, B.toA, D.toB, offs, Nat.add_zero, hB]
    decide
  · simp only [State.peek, D.addr_a_in_C, C.toA, D.toC, offs, Nat.add_zero, Nat.add_assoc,
      Nat.reduceAdd, hC]
    decide

end MultipleInheritance

namespace DuckProgram

/-! ## Claims about `duck.cpp` -/

/-- C6: for every object created as a `RubberDuck` and every earlier output, the
call `push()` (through `Duck` or through `RubberDuck`) succeeds and appends exactly
the line `Squeak!`, the same result as the call `quack()` on that object; the body
that runs is the default of `Duck`, `RubberDuck` declares no `push`, and the class
has no member `fly`. -/
theorem C6_rubberduck_push_default (o : Obj) (out : List String)
    (h : o.dyn = .RubberDuck) :
    (call .Duck o .push).run out = .ok ((), out ++ ["Squeak!"]) ∧
    (call .RubberDuck o .push).run out = .ok ((), out ++ ["Squeak!"]) ∧
    (call .Duck o .push).run out = (call .Duck o .quack).run out ∧
    finalOverrider o.dyn .push = some (.Duck, .body) ∧
    declared .RubberDuck .push = none ∧
    hasMember o.dyn .fly = false := by
  obtain ⟨a, d⟩ := o
  subst h
  refine ⟨?_, ?_, ?_, rfl, rfl, rfl⟩ <;>
  simp [call, lineage, hasMember, declared, push, finalOverrider, Duck.push, quack,
    RubberDuck.quack, println, StateT.run]

/-- C9 (the code departs from its comment): `Flyable` has no member `push`; the only
declaration that the `push` of `Mallard` overrides is the one of `Duck`; the call
`push()` on a `Mallard` through a reference of declared type `Flyable` is rejected,
while through `Duck` it runs the body of `Mallard`. -/
theorem C9_push_is_not_a_member_of_Flyable :
    hasMember .Flyable .push = false ∧
    declared .Flyable .push = none ∧
    overridden .Mallard .push = [.Duck] ∧
    (call .Flyable ⟨0, .Mallard⟩ .push).run [] = .error (.noMember .Flyable .push) ∧
    (call .Duck ⟨0, .Mallard⟩ .push).run [] = .ok ((), ["Quack!", "Heading south!"]) := by
  refine ⟨rfl, rfl, rfl, rfl, rfl⟩

/-- Witness for C6: the `RubberDuck` at address 0 with no earlier output. -/
theorem C6_rubberduck_push_default_witness :
    (Obj.mk 0 .RubberDuck).dyn = .RubberDuck ∧
    (call .Duck (Obj.mk 0 .RubberDuck) .push).run [] = .ok ((), ["Squeak!"]) :=
  ⟨rfl, (C6_rubberduck_push_default (Obj.mk 0 .RubberDuck) [] rfl).1⟩

end DuckProgram
